import Mathlib

namespace PrivComm

/-!
Verification of the private-comm-server relay core against its specification.

The Python source under app/ is shallowly embedded: the process-local
connection registry (a Python dict) becomes an association list, JSON frames
become functions from field names to optional string values, the database
tables become lists of row structures, and each SQL statement becomes a pure
state transformer (or, where the SQL leaves an order unspecified, a relation
on states).  Machine-level concerns (event loop, sockets) are reified as
explicit outcome values: a socket write either succeeds or fails, which is
modeled by a boolean-valued environment function on socket handles.
-/

/-! ## Association-list model of a Python dict

The connection registry in the source is a Python dict from user-id string to
WebSocket.  WebSocket handles are modeled as natural numbers.  Python dict
membership, assignment (which keeps the position of an existing key) and
deletion become the three functions below. -/

def lookupA {κ : Type} [DecidableEq κ] : List (κ × Nat) → κ → Option Nat
  | [], _ => none
  | (k, v) :: rest, key => if k = key then some v else lookupA rest key

def insertA {κ : Type} [DecidableEq κ] : List (κ × Nat) → κ → Nat → List (κ × Nat)
  | [], key, v => [(key, v)]
  | (k, w) :: rest, key, v =>
      if k = key then (k, v) :: rest else (k, w) :: insertA rest key v

def removeA {κ : Type} [DecidableEq κ] : List (κ × Nat) → κ → List (κ × Nat)
  | [], _ => []
  | (k, w) :: rest, key => if k = key then rest else (k, w) :: removeA rest key

/-! ## The two ConnectionManager implementations

The repository contains two ConnectionManager classes: one in app/main.py and
one in app/internal/state.py.  The WebSocket route (app/routes/websocket.py)
imports the manager instance from app.main; the one in app/internal/state.py
is never imported and is dead code.  Both are embedded, because the claims
cite both. -/

/-- Capacity cap declared in app/internal/state.py (MAX_CONNECTIONS). -/
def MAX_CONNECTIONS : Nat := 10000

/-- Result of a connect call: the registry afterwards, the socket handle of a
displaced prior session that was closed (if any), and whether the new socket
was closed with code 1013. -/
structure ConnectOut where
  registry : List (String × Nat)
  closedPrior : Option Nat
  rejected1013 : Bool
deriving DecidableEq, Repr

/-- ConnectionManager.connect in app/main.py (lines 95-104): accept the
upgrade, then under the lock close any prior session for the user and
overwrite the entry.  It performs no capacity check and never closes the new
socket with code 1013. -/
def mainConnect (reg : List (String × Nat)) (userId : String) (ws : Nat) : ConnectOut :=
  { registry := insertA reg userId ws
    closedPrior := lookupA reg userId
    rejected1013 := false }

/-- ConnectionManager.connect in app/internal/state.py (lines 25-40): accept
the upgrade, then under the lock close the new socket with code 1013 and
raise when the registry already has MAX_CONNECTIONS entries (leaving the
registry untouched); otherwise close any displaced prior session and
overwrite the entry. -/
def stateConnect (reg : List (String × Nat)) (userId : String) (ws : Nat) : ConnectOut :=
  if MAX_CONNECTIONS ≤ reg.length then
    { registry := reg, closedPrior := none, rejected1013 := true }
  else
    { registry := insertA reg userId ws
      closedPrior := lookupA reg userId
      rejected1013 := false }

/-- ConnectionManager.disconnect (textually identical in app/main.py lines
106-110 and app/internal/state.py lines 42-46): under the lock, delete the
entry if present. -/
def managerDisconnect (reg : List (String × Nat)) (userId : String) : List (String × Nat) :=
  removeA reg userId

/-- The WebSocketDisconnect branch of websocket_endpoint
(app/routes/websocket.py line 56) evaluates manager.disconnect(user_id)
without await: the coroutine object is created and dropped, so the registry
mutation inside disconnect never executes and the registry is left exactly as
it was when the handler exits. -/
def endpointDisconnectCleanup (reg : List (String × Nat)) (_userId : String) :
    List (String × Nat) :=
  reg

/-- Outcome of a send call: either the method returns a boolean, or an
exception escapes it. -/
inductive SendOutcome where
  | ok (delivered : Bool)
  | raised
deriving DecidableEq, Repr

/-- ConnectionManager.send_to_user in app/main.py (lines 112-117): under the
lock, if an entry exists, await send_json on it (still holding the lock) with
no try/except, so a failing write raises out of the method; return True after
a successful write; return False when no entry exists.  The environment
function writeOk says which socket handles accept a write. -/
def mainSendToUser (reg : List (String × Nat)) (userId : String)
    (writeOk : Nat → Bool) : SendOutcome :=
  match lookupA reg userId with
  | some ws => if writeOk ws then .ok true else .raised
  | none => .ok false

/-- ConnectionManager.send_to_user in app/internal/state.py (lines 48-60):
copy the handle under the lock, release the lock, then send inside
try/except, returning False on a write failure and False when no entry
exists. -/
def stateSendToUser (reg : List (String × Nat)) (userId : String)
    (writeOk : Nat → Bool) : Bool :=
  match lookupA reg userId with
  | some ws => writeOk ws
  | none => false

/-! ## A concrete registry at the capacity cap -/

/-- Distinct user identifiers: the string of i letters a. -/
def uidStr (i : Nat) : String := String.mk (List.replicate i 'a')

/-- A registry state holding exactly MAX_CONNECTIONS entries, one per user
uidStr i with socket handle i. -/
def bigReg : List (String × Nat) := (List.range 10000).map (fun i => (uidStr i, i))

/-! ## JSON frames, base64 and timestamps

Inbound and outbound WebSocket frames are JSON objects whose fields of
interest all carry string values; a frame is modeled as a function from field
name to optional string, so that data.get(k) in Python is data k here.
Payload bytes are lists of naturals below 256; base64.b64encode and
base64.b64decode from the Python standard library are modeled by an
executable codec over them; datetime isoformat rendering is modeled by an
injective rendering of the model's natural-number clock. -/

def JObj : Type := String → Option String

/-- Python truthiness of an optional string field: None and the empty string
are falsy, everything else truthy. -/
def isFalsy : Option String → Bool
  | none => true
  | some s => s == ""

/-- Model of datetime isoformat on the abstract clock. -/
def isoformat (n : Nat) : String := toString n

def b64alphabet : List Char :=
  ['A', 'B', 'C', 'D', 'E', 'F', 'G', 'H', 'I', 'J', 'K', 'L', 'M',
   'N', 'O', 'P', 'Q', 'R', 'S', 'T', 'U', 'V', 'W', 'X', 'Y', 'Z',
   'a', 'b', 'c', 'd', 'e', 'f', 'g', 'h', 'i', 'j', 'k', 'l', 'm',
   'n', 'o', 'p', 'q', 'r', 's', 't', 'u', 'v', 'w', 'x', 'y', 'z',
   '0', '1', '2', '3', '4', '5', '6', '7', '8', '9', '+', '/']

def sextetChar (n : Nat) : Char := b64alphabet.getD n '?'

def b64encodeChunks : List Nat → List Char
  | [] => []
  | [a] => [sextetChar (a / 4), sextetChar (a % 4 * 16), '=', '=']
  | [a, b] => [sextetChar (a / 4), sextetChar (a % 4 * 16 + b / 16), sextetChar (b % 16 * 4), '=']
  | a :: b :: c :: rest =>
      sextetChar (a / 4) :: sextetChar (a % 4 * 16 + b / 16) ::
        sextetChar (b % 16 * 4 + c / 64) :: sextetChar (c % 64) :: b64encodeChunks rest

/-- Model of base64.b64encode followed by decode() to text. -/
def b64encode (bs : List Nat) : String := String.mk (b64encodeChunks bs)

def sextetVal (c : Char) : Option Nat := b64alphabet.indexOf? c

def b64decodeChunks : List Char → Option (List Nat)
  | [] => some []
  | [a, b, '=', '='] =>
      match sextetVal a, sextetVal b with
      | some x, some y => some [x * 4 + y / 16]
      | _, _ => none
  | [a, b, c, '='] =>
      match sextetVal a, sextetVal b, sextetVal c with
      | some x, some y, some z => some [x * 4 + y / 16, y % 16 * 16 + z / 4]
      | _, _, _ => none
  | a :: b :: c :: d :: rest =>
      match sextetVal a, sextetVal b, sextetVal c, sextetVal d, b64decodeChunks rest with
      | some x, some y, some z, some w, some bs =>
          some ((x * 4 + y / 16) :: (y % 16 * 16 + z / 4) :: (z % 4 * 64 + w) :: bs)
      | _, _, _, _, _ => none
  | _ => none

/-- Model of base64.b64decode without validate: characters outside the
alphabet and padding are discarded before grouping, and a group of the wrong
shape raises (modeled as none). -/
def b64decode (s : String) : Option (List Nat) :=
  b64decodeChunks (s.data.filter (fun c => b64alphabet.contains c || c == '='))

/-! ## The pending_messages table and the relay engine -/

/-- A row of the pending_messages table. -/
structure PendingRow where
  id : Nat
  recipient_id : String
  sender_id : String
  encrypted_payload : List Nat
  timestamp : Nat
deriving DecidableEq, Repr

/-- The outbound frame built for a live encrypted_message relay in
handle_message (app/routes/websocket.py lines 71-79). -/
def encFrame (sender payload : String) (now : Nat) : JObj := fun k =>
  if k = "type" then some "encrypted_message"
  else if k = "sender_id" then some sender
  else if k = "payload" then some payload
  else if k = "timestamp" then some (isoformat now)
  else none

def signalingTypes : List String :=
  ["call_offer", "call_answer", "ice_candidate", "call_reject", "call_end"]

/-- The dict literal of the signaling branch (app/routes/websocket.py lines
100-107): the fixed keys type and sender_id are written first, then every
field of the inbound frame except type and recipient_id is spread after them.
In a Python dict literal a later key overrides an earlier one, so a
client-supplied sender_id field overrides the injected authenticated one. -/
def buildSignalFrame (sender msgType : String) (data : JObj) : JObj := fun k =>
  match (if k = "type" ∨ k = "recipient_id" then none else data k) with
  | some v => some v
  | none =>
      if k = "type" then some msgType
      else if k = "sender_id" then some sender
      else none

/-- Result of one handle_message call: the pending_messages table afterwards,
the frame (with its recipient) handed to manager.send_to_user if any, the
boolean send_to_user returned, and whether an exception escaped the call. -/
structure HandleOut where
  pending : List PendingRow
  sentTo : Option (String × JObj)
  delivered : Bool
  raised : Bool

/-- handle_message (app/routes/websocket.py lines 59-107), with the
ConnectionManager from app/main.py (the one the route imports).  Frames with
a falsy type or recipient_id are dropped; encrypted_message frames with a
falsy payload are dropped; otherwise an encrypted_message is handed to
send_to_user and, if that returns False, a pending_messages row is inserted
with the base64-decoded payload; signaling frames are handed to send_to_user
with the result ignored and are never persisted; other types are ignored.
A raising send (or a base64 decode error during the insert) escapes the
call. -/
def handleMessage (reg : List (String × Nat)) (writeOk : Nat → Bool) (sender : String)
    (data : JObj) (now nextId : Nat) (pending : List PendingRow) : HandleOut :=
  if isFalsy (data "type") || isFalsy (data "recipient_id") then
    ⟨pending, none, false, false⟩
  else
    let msgType := (data "type").getD ""
    let recip := (data "recipient_id").getD ""
    if msgType = "encrypted_message" then
      if isFalsy (data "payload") then ⟨pending, none, false, false⟩
      else
        let payload := (data "payload").getD ""
        let frame := encFrame sender payload now
        match mainSendToUser reg recip writeOk with
        | .raised => ⟨pending, some (recip, frame), false, true⟩
        | .ok true => ⟨pending, some (recip, frame), true, false⟩
        | .ok false =>
            match b64decode payload with
            | some bytes =>
                ⟨pending ++ [⟨nextId, recip, sender, bytes, now⟩],
                  some (recip, frame), false, false⟩
            | none => ⟨pending, some (recip, frame), false, true⟩
    else if msgType ∈ signalingTypes then
      let frame := buildSignalFrame sender msgType data
      match mainSendToUser reg recip writeOk with
      | .raised => ⟨pending, some (recip, frame), false, true⟩
      | .ok d => ⟨pending, some (recip, frame), d, false⟩
    else ⟨pending, none, false, false⟩

/-- Field k of the frame handed to send_to_user, if any. -/
def sentFrameField (o : HandleOut) (k : String) : Option String :=
  match o.sentTo with
  | some (_, f) => f k
  | none => none

/-- Recipient of the frame handed to send_to_user, if any. -/
def sentRecipient (o : HandleOut) : Option String :=
  match o.sentTo with
  | some (r, _) => some r
  | none => none

/-- The frame a queued row is rendered to during the drain phase
(app/routes/websocket.py lines 38-46). -/
def pendingFrame (m : PendingRow) : JObj := fun k =>
  if k = "type" then some "encrypted_message"
  else if k = "sender_id" then some m.sender_id
  else if k = "payload" then some (b64encode m.encrypted_payload)
  else if k = "timestamp" then some (isoformat m.timestamp)
  else none

/-- DELETE FROM pending_messages WHERE id = $1. -/
def deleteRow (tbl : List PendingRow) (rid : Nat) : List PendingRow :=
  tbl.filter (fun m => !(m.id == rid))

/-- The drain loop of websocket_endpoint (app/routes/websocket.py lines
38-49): for each fetched row in order, send its frame and only then delete
the row by id; the first failing send raises, aborting the loop with the
current row and all later rows still in the table.  sendOk says which rows
the socket accepts; the result is the list of rows actually sent, the table
afterwards, and whether the loop ran to completion. -/
def drainLoop (sendOk : PendingRow → Bool) :
    List PendingRow → List PendingRow → List PendingRow × List PendingRow × Bool
  | [], tbl => ([], tbl, true)
  | m :: rest, tbl =>
      if sendOk m then
        let r := drainLoop sendOk rest (deleteRow tbl m.id)
        (m :: r.1, r.2.1, r.2.2)
      else ([], tbl, false)

/-- C6 counterexample: the claim says the forwarded signaling frame carries
sender_id equal to the authenticated sender regardless of any field the
client supplied.  With authenticated sender A and an inbound call_offer frame
that itself contains a sender_id field EVIL, the delivered frame carries
sender_id EVIL, because the dict spread in the signaling branch is written
after the injected sender_id and overrides it. -/
def spoofData : JObj := fun k =>
  if k = "type" then some "call_offer"
  else if k = "recipient_id" then some "B"
  else if k = "sender_id" then some "EVIL"
  else if k = "sdp" then some "x"
  else none

def c6data : JObj := fun k =>
  if k = "type" then some "call_offer"
  else if k = "recipient_id" then some "B"
  else if k = "sdp" then some "zzz"
  else none

def c10data : JObj := fun k =>
  if k = "type" then some "encrypted_message"
  else if k = "recipient_id" then some "B"
  else none

def w8a : PendingRow := ⟨1, "B", "A", [102, 111, 111], 5⟩

def w8b : PendingRow := ⟨2, "B", "A", [1], 3⟩

def w8c : PendingRow := ⟨3, "C", "A", [2], 1⟩

def w8tbl : List PendingRow := [w8a, w8b, w8c]

def w8rows : List PendingRow := [w8b, w8a]

def w8send : PendingRow → Bool := fun m => m.id == 2

/-! ## Users, one-time prekeys, registration and the key bundle -/

/-- A row of the users table.  User ids are UUIDs in the source, modeled as
naturals. -/
structure UserRow where
  id : Nat
  phone_hash : String
  identity_key : List Nat
  signed_prekey : List Nat
  prekey_signature : List Nat
  created_at : Nat
  last_seen : Nat
deriving DecidableEq, Repr

/-- A row of the one_time_prekeys table.  id is the SERIAL primary key; the
schema also enforces UNIQUE(user_id, key_id). -/
structure PrekeyRow where
  id : Nat
  user_id : Nat
  key_id : Nat
  public_key : List Nat
  used : Bool
  created_at : Nat
deriving DecidableEq, Repr

/-- The database state the registration routes touch. -/
structure DB where
  users : List UserRow
  prekeys : List PrekeyRow
deriving DecidableEq, Repr

/-- The users-table statement pair of register_user
(app/routes/registration.py lines 52-83): SELECT by phone_hash, then either
UPDATE the three key fields and last_seen, or INSERT a fresh row (with NOW()
defaults and a generated id).  Returns the new state and the user id the rest
of the handler uses. -/
def upsertUser (db : DB) (ph : String) (ik spk sig : List Nat) (newId now : Nat) :
    DB × Nat :=
  match db.users.find? (fun u => u.phone_hash == ph) with
  | some u =>
      (⟨db.users.map (fun v =>
          if v.phone_hash == ph then
            { v with identity_key := ik, signed_prekey := spk,
                     prekey_signature := sig, last_seen := now }
          else v), db.prekeys⟩, u.id)
  | none =>
      (⟨db.users ++ [⟨newId, ph, ik, spk, sig, now, now⟩], db.prekeys⟩, newId)

/-- One prekey statement of register_user (lines 85-95): INSERT INTO
one_time_prekeys ... ON CONFLICT (user_id, key_id) DO UPDATE SET
public_key = $3, used = FALSE. -/
def upsertPrekey (db : DB) (uid kid : Nat) (pk : List Nat) (newId now : Nat) : DB :=
  if db.prekeys.any (fun r => r.user_id == uid && r.key_id == kid) then
    ⟨db.users, db.prekeys.map (fun r =>
        if r.user_id == uid && r.key_id == kid then
          { r with public_key := pk, used := false }
        else r)⟩
  else
    ⟨db.users, db.prekeys ++ [⟨newId, uid, kid, pk, false, now⟩]⟩

/-- The body of a register call: phone hash, the three decoded key fields,
and the batch of (key_id, public_key) prekeys. -/
structure RegisterReq where
  phone_hash : String
  identity_key : List Nat
  signed_prekey : List Nat
  prekey_signature : List Nat
  one_time_prekeys : List (Nat × List Nat)
deriving DecidableEq, Repr

/-- Apply the first prekey upserts of a batch in order (serial row ids count
up from pid). -/
def applyPrekeys (uid : Nat) : DB → List (Nat × List Nat) → Nat → Nat → DB
  | db, [], _, _ => db
  | db, (kid, pk) :: rest, pid, now =>
      applyPrekeys uid (upsertPrekey db uid kid pk pid now) rest (pid + 1) now

/-- The successive states seen between statements of the prekey loop. -/
def prekeyStates (uid : Nat) : DB → List (Nat × List Nat) → Nat → Nat → List DB
  | db, [], _, _ => [db]
  | db, (kid, pk) :: rest, pid, now =>
      db :: prekeyStates uid (upsertPrekey db uid kid pk pid now) rest (pid + 1) now

/-- The sequence of committed database states produced by one register_user
call (app/routes/registration.py lines 48-97).  The handler acquires a
connection but opens no transaction, and asyncpg runs each statement in its
own implicit transaction, so every state in this list is visible to other
connections while the call is in flight: index 0 is the state before the
call, index 1 the state after the users-table statement, and index 1+j the
state after the first j prekey upserts. -/
def registerStates (db : DB) (req : RegisterReq) (newUserId pid0 now : Nat) : List DB :=
  let r := upsertUser db req.phone_hash req.identity_key req.signed_prekey
    req.prekey_signature newUserId now
  db :: prekeyStates r.2 r.1 req.one_time_prekeys pid0 now

/-! ## Prekey dispensing (GET /api/v1/keys) -/

/-- The unused prekeys of one user: WHERE user_id = $1 AND NOT used. -/
def unusedFor (ps : List PrekeyRow) (uid : Nat) : List PrekeyRow :=
  ps.filter (fun r => r.user_id == uid && !r.used)

/-- Whether the inner SELECT of the dispensing statement
(app/routes/registration.py lines 117-130) may return row r: the query is
ORDER BY created_at LIMIT 1 with no further sort key, so any unused row of
the user with minimal created_at is a permitted result. -/
def oldestOk (ps : List PrekeyRow) (uid : Nat) (r : PrekeyRow) : Bool :=
  decide (r ∈ unusedFor ps uid) &&
    (unusedFor ps uid).all (fun s => r.created_at ≤ s.created_at)

/-- UPDATE one_time_prekeys SET used = TRUE WHERE id = $rid. -/
def markUsed (ps : List PrekeyRow) (rid : Nat) : List PrekeyRow :=
  ps.map (fun r => if r.id == rid then { r with used := true } else r)

/-- One execution of the dispensing statement for user uid: the whole
UPDATE ... RETURNING runs as a single SQL statement which the store executes
atomically (section 5 of the specification places isolation on the
database).  Either some unused row of minimal created_at is marked used and
its (key_id, public_key) returned, or there is no unused row and the state
is unchanged with no row returned. -/
inductive Dispense (uid : Nat) : List PrekeyRow → Option (Nat × List Nat) → List PrekeyRow → Prop
  | hit (ps : List PrekeyRow) (r : PrekeyRow) (h : oldestOk ps uid r = true) :
      Dispense uid ps (some (r.key_id, r.public_key)) (markUsed ps r.id)
  | miss (ps : List PrekeyRow) (h : unusedFor ps uid = []) :
      Dispense uid ps none ps

/-- K concurrent fetch_bundle callers for one user: the store serializes their
K atomic dispensing statements in some order, producing one output per
caller. -/
inductive DispenseSeq (uid : Nat) :
    List PrekeyRow → List (Option (Nat × List Nat)) → List PrekeyRow → Prop
  | nil (ps : List PrekeyRow) : DispenseSeq uid ps [] ps
  | step {ps ps1 ps2 : List PrekeyRow} {out : Option (Nat × List Nat)}
      {outs : List (Option (Nat × List Nat))}
      (h1 : Dispense uid ps out ps1) (h2 : DispenseSeq uid ps1 outs ps2) :
      DispenseSeq uid ps (out :: outs) ps2

/-- The key-bundle response body (key fields as the base64 text the route
returns). -/
structure Bundle where
  identity_key : String
  signed_prekey : String
  prekey_signature : String
  one_time_prekey : Option (Nat × String)
deriving DecidableEq, Repr

/-- get_key_bundle (app/routes/registration.py lines 100-142): look up the
user by phone_hash (404 if absent), run the dispensing statement, and return
the base64-encoded bundle with the dispensed prekey or null. -/
inductive GetKeyBundle (db : DB) (ph : String) : Except Nat Bundle → DB → Prop
  | notFound (h : db.users.find? (fun u => u.phone_hash == ph) = none) :
      GetKeyBundle db ph (.error 404) db
  | noPrekey (u : UserRow) (hu : db.users.find? (fun v => v.phone_hash == ph) = some u)
      (h : unusedFor db.prekeys u.id = []) :
      GetKeyBundle db ph
        (.ok ⟨b64encode u.identity_key, b64encode u.signed_prekey,
          b64encode u.prekey_signature, none⟩) db
  | withPrekey (u : UserRow) (r : PrekeyRow)
      (hu : db.users.find? (fun v => v.phone_hash == ph) = some u)
      (h : oldestOk db.prekeys u.id r = true) :
      GetKeyBundle db ph
        (.ok ⟨b64encode u.identity_key, b64encode u.signed_prekey,
          b64encode u.prekey_signature, some (r.key_id, b64encode r.public_key)⟩)
        ⟨db.users, markUsed db.prekeys r.id⟩

/-- The selection rule the claim asserts: oldest by created_at ascending with
ties broken by id ascending.  Stated from the specification wording, for
comparison with the implemented query. -/
def specOldestPick (ps : List PrekeyRow) (uid : Nat) : Option PrekeyRow :=
  match unusedFor ps uid with
  | [] => none
  | c :: cs =>
      some ((c :: cs).foldl
        (fun b r =>
          if r.created_at < b.created_at ∨ (r.created_at = b.created_at ∧ r.id < b.id)
          then r else b) c)

/-! ## Token service (app/routes/auth.py) -/

/-- A JWT as the relay uses it: HS256-signed claims sub, iat, exp.  The
signature under the server secret is modeled by recording the signing key;
verification compares it. -/
structure JwtToken where
  sub : String
  iat : Nat
  exp : Nat
  key : String
deriving DecidableEq, Repr

/-- create_access_token (app/routes/auth.py lines 35-45): claims are
subject = user_id, issued-at = now, expiry = now plus 30 minutes (1800 s),
signed with the server secret. -/
def create_access_token (secret userId : String) (now : Nat) : JwtToken :=
  ⟨userId, now, now + 1800, secret⟩

/-- decode_websocket_token (app/routes/auth.py lines 48-61): None when the
secret is unset; jwt.decode checks the signature and rejects a token whose
expiry lies before the check time; a missing or empty sub claim yields None;
otherwise the subject is returned. -/
def decode_websocket_token (secret : String) (tok : JwtToken) (now : Nat) : Option String :=
  if secret = "" then none
  else if tok.key ≠ secret then none
  else if tok.exp < now then none
  else if tok.sub = "" then none
  else some tok.sub

def regDb0 : DB := ⟨[], []⟩

def exReq7 : RegisterReq := ⟨"ph", [1], [2], [3], [(10, [4]), (11, [5])]⟩

def tieUser : UserRow := ⟨1, "ab", [7], [8], [9], 0, 0⟩

def tieR1 : PrekeyRow := ⟨1, 1, 10, [1], false, 100⟩

def tieR2 : PrekeyRow := ⟨2, 1, 11, [2], false, 100⟩

def tieDb : DB := ⟨[tieUser], [tieR1, tieR2]⟩

def c1r1 : PrekeyRow := ⟨1, 1, 10, [1], false, 100⟩

def c1r2 : PrekeyRow := ⟨2, 1, 11, [2], false, 200⟩

def c1ps : List PrekeyRow := [c1r1, c1r2]

def c1outs : List (Option (Nat × List Nat)) := [some (10, [1]), some (11, [2]), none]

theorem uidStr_injective : Function.Injective uidStr := by
  intro i j h
  have hlen := congrArg String.length h
  simpa [uidStr, String.length] using hlen

theorem bigReg_length : bigReg.length = MAX_CONNECTIONS := by
  simp [bigReg, MAX_CONNECTIONS]

theorem bigReg_keys_nodup : (bigReg.map Prod.fst).Nodup := by
  have : bigReg.map Prod.fst = (List.range 10000).map uidStr := by
    simp [bigReg, Function.comp]
  rw [this]
  exact (List.nodup_range 10000).map uidStr_injective

theorem lookupA_map_self (f : Nat → String) (hf : Function.Injective f) :
    ∀ (l : List Nat) (i : Nat), i ∈ l →
      lookupA (l.map (fun j => (f j, j))) (f i) = some i := by
  intro l
  induction l with
  | nil => intro i hi; cases hi
  | cons j t ih =>
      intro i hi
      by_cases hji : j = i
      · subst hji
        simp [lookupA]
      · have hne : f j ≠ f i := fun h => hji (hf h)
        have hit : i ∈ t := by
          rcases List.mem_cons.mp hi with h | h
          · exact absurd h.symm hji
          · exact h
        simpa [lookupA, hne] using ih i hit

theorem lookupA_bigReg_one : lookupA bigReg (uidStr 1) = some 1 := by
  have h1 : (1 : Nat) ∈ List.range 10000 := by
    simp
  exact lookupA_map_self uidStr uidStr_injective (List.range 10000) 1 h1

theorem lookupA_insertA_self {κ : Type} [DecidableEq κ]
    (m : List (κ × Nat)) (k : κ) (v : Nat) :
    lookupA (insertA m k v) k = some v := by
  induction m with
  | nil => simp [insertA, lookupA]
  | cons p t ih =>
      obtain ⟨a, b⟩ := p
      by_cases hak : a = k
      · subst hak
        simp [insertA, lookupA]
      · simp [insertA, lookupA, hak, ih]

/-- C3: the claim says a connect attempt made while the registry holds 10,000
entries is closed with code 1013 and leaves the registry unchanged.  The
ConnectionManager actually wired into the relay (app/main.py, imported by
app/routes/websocket.py) performs no capacity check: at a registry of exactly
10,000 entries it never sends close code 1013, it closes and displaces the
connecting user's existing session (socket 1), and it installs the new socket
777.  The unused ConnectionManager in app/internal/state.py is the one that
implements the claimed behavior (close 1013, registry untouched). -/
theorem c3_capacity_cap_missing :
    bigReg.length = MAX_CONNECTIONS ∧
    (bigReg.map Prod.fst).Nodup ∧
    (mainConnect bigReg (uidStr 1) 777).rejected1013 = false ∧
    (mainConnect bigReg (uidStr 1) 777).closedPrior = some 1 ∧
    lookupA (mainConnect bigReg (uidStr 1) 777).registry (uidStr 1) = some 777 ∧
    (stateConnect bigReg (uidStr 1) 777).rejected1013 = true ∧
    (stateConnect bigReg (uidStr 1) 777).registry = bigReg := by
  refine ⟨bigReg_length, bigReg_keys_nodup, rfl, ?_, ?_, ?_, ?_⟩
  · simpa [mainConnect] using lookupA_bigReg_one
  · simpa [mainConnect] using lookupA_insertA_self bigReg (uidStr 1) 777
  · simp [stateConnect, bigReg_length]
  · simp [stateConnect, bigReg_length]

/-- C4: the claim says the registry's send operation returns true exactly on a
successful write and false (rather than raising) on an absent entry or a
failed write.  The send_to_user actually used by the relay (app/main.py) does
return true on success and false on an absent entry, but a failing socket
write raises out of the method: at the registry holding user A on socket 5
with a failing write, the call raises instead of returning false.  The unused
app/internal/state.py send_to_user returns false there, as the claim says. -/
theorem c4_send_raises_on_write_failure :
    mainSendToUser [("A", 5)] "A" (fun _ => true) = .ok true ∧
    mainSendToUser [] "A" (fun _ => true) = .ok false ∧
    mainSendToUser [("A", 5)] "A" (fun _ => false) = .raised ∧
    stateSendToUser [("A", 5)] "A" (fun _ => false) = false ∧
    stateSendToUser [] "A" (fun _ => false) = false := by
  refine ⟨rfl, rfl, rfl, rfl, rfl⟩

theorem isFalsy_some (s : String) : isFalsy (some s) = (s == "") := rfl

theorem buildSignalFrame_type (sender t : String) (data : JObj) :
    buildSignalFrame sender t data "type" = some t := by
  simp [buildSignalFrame]

theorem buildSignalFrame_recipient (sender t : String) (data : JObj) :
    buildSignalFrame sender t data "recipient_id" = none := by
  simp [buildSignalFrame]

theorem buildSignalFrame_sender (sender t : String) (data : JObj) :
    buildSignalFrame sender t data "sender_id" =
      (if data "sender_id" = none then some sender else data "sender_id") := by
  cases h : data "sender_id" <;> simp [buildSignalFrame, h]

theorem buildSignalFrame_other (sender t : String) (data : JObj) (k : String)
    (h1 : k ≠ "type") (h2 : k ≠ "recipient_id") (h3 : k ≠ "sender_id") :
    buildSignalFrame sender t data k = data k := by
  cases h : data k <;> simp [buildSignalFrame, h1, h2, h3, h]

/-- Shape of handle_message on a signaling frame: the table is untouched and
the built frame is handed to send_to_user, whose boolean result is ignored
and whose exception (the main.py manager can raise on a failing write)
escapes. -/
theorem handleMessage_signaling (reg : List (String × Nat)) (writeOk : Nat → Bool)
    (sender : String) (data : JObj) (now nextId : Nat) (pending : List PendingRow)
    (msgType : String) (ht : data "type" = some msgType) (hm : msgType ∈ signalingTypes)
    (hr : isFalsy (data "recipient_id") = false) :
    handleMessage reg writeOk sender data now nextId pending =
      match mainSendToUser reg ((data "recipient_id").getD "") writeOk with
      | .raised =>
          ⟨pending, some ((data "recipient_id").getD "", buildSignalFrame sender msgType data),
            false, true⟩
      | .ok d =>
          ⟨pending, some ((data "recipient_id").getD "", buildSignalFrame sender msgType data),
            d, false⟩ := by
  have hm' : msgType = "call_offer" ∨ msgType = "call_answer" ∨ msgType = "ice_candidate" ∨
      msgType = "call_reject" ∨ msgType = "call_end" := by
    simpa [signalingTypes] using hm
  rcases hm' with rfl | rfl | rfl | rfl | rfl <;>
    simp [handleMessage, ht, hr, isFalsy_some, signalingTypes]

theorem c6_sender_spoof_counterexample :
    sentFrameField (handleMessage [("B", 7)] (fun _ => true) "A" spoofData 0 0 []) "sender_id"
      = some "EVIL" ∧
    "EVIL" ≠ "A" ∧
    (handleMessage [("B", 7)] (fun _ => true) "A" spoofData 0 0 []).delivered = true := by
  refine ⟨rfl, by decide, rfl⟩

/-- C6 (amended): for every inbound signaling frame with a truthy
recipient_id, the frame handed to the recipient preserves the type, passes
every field other than type, recipient_id and sender_id through verbatim,
strips recipient_id, and carries sender_id equal to the authenticated sender
only when the client supplied no sender_id field - a client-supplied
sender_id overrides the injected one.  The frame is never persisted, and if
the recipient is offline it is silently dropped with no error surfaced to the
sender. -/
theorem c6_signaling_forwarding (reg : List (String × Nat)) (writeOk : Nat → Bool)
    (sender : String) (data : JObj) (now nextId : Nat) (pending : List PendingRow)
    (msgType : String) (ht : data "type" = some msgType) (hm : msgType ∈ signalingTypes)
    (hr : isFalsy (data "recipient_id") = false) :
    (handleMessage reg writeOk sender data now nextId pending).pending = pending ∧
    sentRecipient (handleMessage reg writeOk sender data now nextId pending)
      = some ((data "recipient_id").getD "") ∧
    sentFrameField (handleMessage reg writeOk sender data now nextId pending) "type"
      = some msgType ∧
    sentFrameField (handleMessage reg writeOk sender data now nextId pending) "sender_id"
      = (if data "sender_id" = none then some sender else data "sender_id") ∧
    sentFrameField (handleMessage reg writeOk sender data now nextId pending) "recipient_id"
      = none ∧
    (∀ k, k ≠ "type" → k ≠ "recipient_id" → k ≠ "sender_id" →
      sentFrameField (handleMessage reg writeOk sender data now nextId pending) k = data k) ∧
    (lookupA reg ((data "recipient_id").getD "") = none →
      (handleMessage reg writeOk sender data now nextId pending).delivered = false ∧
      (handleMessage reg writeOk sender data now nextId pending).raised = false) := by
  rw [handleMessage_signaling reg writeOk sender data now nextId pending msgType ht hm hr]
  cases hsend : mainSendToUser reg ((data "recipient_id").getD "") writeOk with
  | raised =>
      refine ⟨rfl, rfl, ?_, ?_, ?_, ?_, ?_⟩
      · simpa [sentFrameField] using buildSignalFrame_type sender msgType data
      · simpa [sentFrameField] using buildSignalFrame_sender sender msgType data
      · simpa [sentFrameField] using buildSignalFrame_recipient sender msgType data
      · intro k h1 h2 h3
        simpa [sentFrameField] using buildSignalFrame_other sender msgType data k h1 h2 h3
      · intro hoff
        simp [mainSendToUser, hoff] at hsend
  | ok d =>
      refine ⟨rfl, rfl, ?_, ?_, ?_, ?_, ?_⟩
      · simpa [sentFrameField] using buildSignalFrame_type sender msgType data
      · simpa [sentFrameField] using buildSignalFrame_sender sender msgType data
      · simpa [sentFrameField] using buildSignalFrame_recipient sender msgType data
      · intro k h1 h2 h3
        simpa [sentFrameField] using buildSignalFrame_other sender msgType data k h1 h2 h3
      · intro hoff
        simp only [mainSendToUser, hoff] at hsend
        cases d
        · exact ⟨rfl, rfl⟩
        · exact absurd hsend (by decide)

theorem c6_signaling_forwarding_witness :
    c6data "type" = some "call_offer" ∧
    "call_offer" ∈ signalingTypes ∧
    isFalsy (c6data "recipient_id") = false ∧
    ((handleMessage [] (fun _ => true) "A" c6data 9 0 []).pending = [] ∧
      sentRecipient (handleMessage [] (fun _ => true) "A" c6data 9 0 [])
        = some ((c6data "recipient_id").getD "") ∧
      sentFrameField (handleMessage [] (fun _ => true) "A" c6data 9 0 []) "type"
        = some "call_offer" ∧
      sentFrameField (handleMessage [] (fun _ => true) "A" c6data 9 0 []) "sender_id"
        = (if c6data "sender_id" = none then some "A" else c6data "sender_id") ∧
      sentFrameField (handleMessage [] (fun _ => true) "A" c6data 9 0 []) "recipient_id"
        = none ∧
      (∀ k, k ≠ "type" → k ≠ "recipient_id" → k ≠ "sender_id" →
        sentFrameField (handleMessage [] (fun _ => true) "A" c6data 9 0 []) k = c6data k) ∧
      (lookupA [] ((c6data "recipient_id").getD "") = none →
        (handleMessage [] (fun _ => true) "A" c6data 9 0 []).delivered = false ∧
        (handleMessage [] (fun _ => true) "A" c6data 9 0 []).raised = false)) :=
  ⟨rfl, by decide, rfl,
    c6_signaling_forwarding [] (fun _ => true) "A" c6data 9 0 [] "call_offer"
      rfl (by decide) rfl⟩

/-- C10: an inbound encrypted_message frame with a truthy recipient_id but a
missing or empty payload field is dropped without error: no pending row is
inserted, nothing is handed to send_to_user, and no exception escapes, so the
sender's session stays open. -/
theorem c10_falsy_payload_dropped (reg : List (String × Nat)) (writeOk : Nat → Bool)
    (sender : String) (data : JObj) (now nextId : Nat) (pending : List PendingRow)
    (ht : data "type" = some "encrypted_message")
    (_hr : isFalsy (data "recipient_id") = false)
    (hp : data "payload" = none ∨ data "payload" = some "") :
    (handleMessage reg writeOk sender data now nextId pending).pending = pending ∧
    (handleMessage reg writeOk sender data now nextId pending).sentTo = none ∧
    (handleMessage reg writeOk sender data now nextId pending).raised = false := by
  rcases hp with hp | hp <;>
    simp [handleMessage, ht, hp, isFalsy]

theorem c10_falsy_payload_dropped_witness :
    c10data "type" = some "encrypted_message" ∧
    isFalsy (c10data "recipient_id") = false ∧
    (c10data "payload" = none ∨ c10data "payload" = some "") ∧
    ((handleMessage [("B", 7)] (fun _ => true) "A" c10data 3 0 []).pending = [] ∧
      (handleMessage [("B", 7)] (fun _ => true) "A" c10data 3 0 []).sentTo = none ∧
      (handleMessage [("B", 7)] (fun _ => true) "A" c10data 3 0 []).raised = false) :=
  ⟨rfl, rfl, Or.inl rfl,
    c10_falsy_payload_dropped [("B", 7)] (fun _ => true) "A" c10data 3 0 []
      rfl rfl (Or.inl rfl)⟩

theorem drainLoop_sent (sendOk : PendingRow → Bool) :
    ∀ (rows tbl : List PendingRow), (drainLoop sendOk rows tbl).1 = rows.takeWhile sendOk := by
  intro rows
  induction rows with
  | nil => intro tbl; simp [drainLoop]
  | cons m rest ih =>
      intro tbl
      cases h : sendOk m with
      | true => simp [drainLoop, h, List.takeWhile_cons, ih]
      | false => simp [drainLoop, h, List.takeWhile_cons]

theorem drainLoop_tbl (sendOk : PendingRow → Bool) :
    ∀ (rows tbl : List PendingRow),
      (drainLoop sendOk rows tbl).2.1
        = tbl.filter
            (fun m => ((rows.takeWhile sendOk).map PendingRow.id).all (fun i => !(m.id == i))) := by
  intro rows
  induction rows with
  | nil => intro tbl; simp [drainLoop]
  | cons m rest ih =>
      intro tbl
      cases h : sendOk m with
      | false => simp [drainLoop, h, List.takeWhile_cons]
      | true =>
          simp only [drainLoop, h, if_true, List.takeWhile_cons, List.map_cons, List.all_cons]
          rw [ih (deleteRow tbl m.id)]
          simp only [deleteRow, List.filter_filter]
          exact List.filter_congr (fun x _ => Bool.and_comm _ _)

/-- C8: for every reconnecting user, the drain phase sends the queued rows in
nondecreasing timestamp order (the sent rows are the initial segment of the
fetched rows, which any execution of ORDER BY timestamp sorts by timestamp),
deletes exactly the rows already sent (a row is deleted only after its frame
is sent), and on a send failure mid-drain leaves every not-yet-sent row in
the table for the next reconnect; when every send succeeds, all fetched rows
are sent. -/
theorem c8_drain_order_and_deletion (uid : String) (tbl rows : List PendingRow)
    (sendOk : PendingRow → Bool)
    (hids : (tbl.map PendingRow.id).Nodup)
    (hperm : rows.Perm (tbl.filter (fun m => m.recipient_id == uid)))
    (hsorted : rows.Pairwise (fun a b => a.timestamp ≤ b.timestamp)) :
    ((drainLoop sendOk rows tbl).1).Pairwise (fun a b => a.timestamp ≤ b.timestamp) ∧
    (drainLoop sendOk rows tbl).1 ++ rows.dropWhile sendOk = rows ∧
    (∀ m ∈ rows.dropWhile sendOk, m ∈ (drainLoop sendOk rows tbl).2.1) ∧
    (∀ m ∈ (drainLoop sendOk rows tbl).1, m ∉ (drainLoop sendOk rows tbl).2.1) ∧
    (∀ m ∈ (drainLoop sendOk rows tbl).2.1, m ∈ tbl) ∧
    ((∀ m ∈ rows, sendOk m = true) → (drainLoop sendOk rows tbl).1 = rows) := by
  have hinj : ∀ x ∈ tbl, ∀ y ∈ tbl, x.id = y.id → x = y :=
    fun x hx y hy hxy => List.inj_on_of_nodup_map hids hx hy hxy
  have hrowsub : ∀ m ∈ rows, m ∈ tbl := by
    intro m hm
    exact (List.mem_filter.mp (hperm.subset hm)).1
  have htblnodup : tbl.Nodup := hids.of_map
  have hrownodup : rows.Nodup := hperm.nodup_iff.mpr (htblnodup.filter _)
  have hsplit : rows.takeWhile sendOk ++ rows.dropWhile sendOk = rows :=
    List.takeWhile_append_dropWhile sendOk rows
  have hdisj : List.Disjoint (rows.takeWhile sendOk) (rows.dropWhile sendOk) := by
    refine List.disjoint_of_nodup_append ?_
    rw [hsplit]
    exact hrownodup
  rw [drainLoop_sent sendOk rows tbl, drainLoop_tbl sendOk rows tbl]
  refine ⟨List.Pairwise.sublist (List.takeWhile_sublist sendOk) hsorted, hsplit, ?_, ?_, ?_, ?_⟩
  · intro m hm
    have hmrows : m ∈ rows := (List.dropWhile_sublist sendOk).subset hm
    have hmtbl := hrowsub m hmrows
    refine List.mem_filter.mpr ⟨hmtbl, ?_⟩
    rw [List.all_eq_true]
    intro i hi
    obtain ⟨s, hs, rfl⟩ := List.mem_map.mp hi
    have hne : m.id ≠ s.id := by
      intro heq
      have hstbl : s ∈ tbl := hrowsub s ((List.takeWhile_sublist sendOk).subset hs)
      have hsm : s = m := hinj s hstbl m hmtbl heq.symm
      subst hsm
      exact hdisj hs hm
    simpa using hne
  · intro m hm hmem
    have hpred := (List.mem_filter.mp hmem).2
    rw [List.all_eq_true] at hpred
    have := hpred m.id (List.mem_map.mpr ⟨m, hm, rfl⟩)
    simp at this
  · intro m hm
    exact (List.mem_filter.mp hm).1
  · intro hall
    exact List.takeWhile_eq_self_iff.mpr (fun m hm => hall m hm)

theorem c8_drain_order_and_deletion_witness :
    (w8tbl.map PendingRow.id).Nodup ∧
    w8rows.Perm (w8tbl.filter (fun m => m.recipient_id == "B")) ∧
    w8rows.Pairwise (fun a b => a.timestamp ≤ b.timestamp) ∧
    (((drainLoop w8send w8rows w8tbl).1).Pairwise (fun a b => a.timestamp ≤ b.timestamp) ∧
      (drainLoop w8send w8rows w8tbl).1 ++ w8rows.dropWhile w8send = w8rows ∧
      (∀ m ∈ w8rows.dropWhile w8send, m ∈ (drainLoop w8send w8rows w8tbl).2.1) ∧
      (∀ m ∈ (drainLoop w8send w8rows w8tbl).1, m ∉ (drainLoop w8send w8rows w8tbl).2.1) ∧
      (∀ m ∈ (drainLoop w8send w8rows w8tbl).2.1, m ∈ w8tbl) ∧
      ((∀ m ∈ w8rows, w8send m = true) → (drainLoop w8send w8rows w8tbl).1 = w8rows)) :=
  ⟨by decide, by decide, by decide,
    c8_drain_order_and_deletion "B" w8tbl w8rows w8send (by decide) (by decide) (by decide)⟩

/-- C5: the claim says that after a session ends by peer disconnect the
registry holds no entry for that user, and that disconnect removes the entry
and is idempotent.  The disconnect operation itself does remove the entry and
is idempotent, but the WebSocketDisconnect branch of websocket_endpoint calls
manager.disconnect(user_id) without await (app/routes/websocket.py line 56),
so the removal coroutine never runs: after the handler exits, the entry for
the user is still in the registry. -/
theorem c5_disconnect_never_awaited :
    endpointDisconnectCleanup [("A", 5)] "A" = [("A", 5)] ∧
    lookupA (endpointDisconnectCleanup [("A", 5)] "A") "A" = some 5 ∧
    managerDisconnect [("A", 5)] "A" = [] ∧
    managerDisconnect (managerDisconnect [("A", 5)] "A") "A" = [] := by
  refine ⟨rfl, by decide, by decide, by decide⟩

/-- C9: verifying a token issued for a user yields that user id at any check
time within 30 minutes (1800 s) of issuance, yields invalid (None, so the
WebSocket upgrade is rejected) at any check time after the expiry, and never
extends validity: once a check returns invalid, every later check does too.
The secret is nonempty (app/config.py refuses to start without SECRET_KEY)
and user ids are server-generated UUID strings, hence nonempty. -/
theorem c9_token_roundtrip (secret userId : String) (tIssue : Nat)
    (hsecret : secret ≠ "") (huser : userId ≠ "") :
    (∀ tCheck, tCheck ≤ tIssue + 1800 →
      decode_websocket_token secret (create_access_token secret userId tIssue) tCheck
        = some userId) ∧
    (∀ tCheck, tIssue + 1800 < tCheck →
      decode_websocket_token secret (create_access_token secret userId tIssue) tCheck
        = none) ∧
    (∀ t t', t ≤ t' →
      decode_websocket_token secret (create_access_token secret userId tIssue) t = none →
      decode_websocket_token secret (create_access_token secret userId tIssue) t' = none) := by
  refine ⟨?_, ?_, ?_⟩
  · intro t h
    have hlt : ¬(tIssue + 1800 < t) := Nat.not_lt.mpr h
    simp [decode_websocket_token, create_access_token, hsecret, huser, hlt]
  · intro t h
    simp [decode_websocket_token, create_access_token, hsecret, huser, h]
  · intro t t' htt' hnone
    simp only [decode_websocket_token, create_access_token] at hnone ⊢
    simp [hsecret, huser] at hnone ⊢
    omega

theorem c9_token_roundtrip_witness :
    ("s" : String) ≠ "" ∧ ("u" : String) ≠ "" ∧
    ((∀ tCheck, tCheck ≤ 40 + 1800 →
      decode_websocket_token "s" (create_access_token "s" "u" 40) tCheck = some "u") ∧
    (∀ tCheck, 40 + 1800 < tCheck →
      decode_websocket_token "s" (create_access_token "s" "u" 40) tCheck = none) ∧
    (∀ t t', t ≤ t' →
      decode_websocket_token "s" (create_access_token "s" "u" 40) t = none →
      decode_websocket_token "s" (create_access_token "s" "u" 40) t' = none)) :=
  ⟨by decide, by decide, c9_token_roundtrip "s" "u" 40 (by decide) (by decide)⟩

theorem prekeyStates_length (uid now : Nat) :
    ∀ (l : List (Nat × List Nat)) (db : DB) (pid : Nat),
      (prekeyStates uid db l pid now).length = l.length + 1 := by
  intro l
  induction l with
  | nil => intro db pid; rfl
  | cons p rest ih =>
      obtain ⟨kid, pk⟩ := p
      intro db pid
      simp [prekeyStates, ih]

theorem prekeyStates_get (uid now : Nat) :
    ∀ (l : List (Nat × List Nat)) (db : DB) (pid f : Nat), f ≤ l.length →
      (prekeyStates uid db l pid now).get? f
        = some (applyPrekeys uid db (l.take f) pid now) := by
  intro l
  induction l with
  | nil =>
      intro db pid f hf
      have hf0 : f = 0 := Nat.le_zero.mp hf
      subst hf0
      rfl
  | cons p rest ih =>
      obtain ⟨kid, pk⟩ := p
      intro db pid f hf
      cases f with
      | zero => rfl
      | succ g =>
          have hg : g ≤ rest.length := by simpa using hf
          simpa [prekeyStates, applyPrekeys] using
            ih (upsertPrekey db uid kid pk pid now) (pid + 1) g hg

/-- C7 counterexample: the claim says the register call executes in a single
transaction so partial success is not observable.  register_user opens no
transaction, so each statement commits on its own: on an empty database, the
committed state after the users statement (index 1 of the state sequence)
differs both from the initial state (index 0) and from the final state - it
already has the user but none of the two prekeys - and is visible to every
other connection at that point. -/
theorem c7_counterexample :
    ((registerStates regDb0 exReq7 1 100 50).get? 1).isSome = true ∧
    (registerStates regDb0 exReq7 1 100 50).get? 1
      ≠ (registerStates regDb0 exReq7 1 100 50).get? 0 ∧
    (registerStates regDb0 exReq7 1 100 50).get? 1
      ≠ (registerStates regDb0 exReq7 1 100 50).getLast? := by
  decide

/-- C7 (amended): register_user acquires a connection but opens no explicit
transaction, and asyncpg commits each statement separately; the committed
state visible to other callers after the users statement and the first f
prekey statements is exactly the initial state with the user upserted and
the first f prekeys of the batch upserted.  Only each individual statement
is atomic; a failure mid-batch leaves all earlier statements visible. -/
theorem c7_per_statement_visibility (db : DB) (req : RegisterReq)
    (uid0 pid0 now f : Nat) (hf : f ≤ req.one_time_prekeys.length) :
    (registerStates db req uid0 pid0 now).length = req.one_time_prekeys.length + 2 ∧
    (registerStates db req uid0 pid0 now).get? 0 = some db ∧
    (registerStates db req uid0 pid0 now).get? (f + 1) =
      some (applyPrekeys
        (upsertUser db req.phone_hash req.identity_key req.signed_prekey
          req.prekey_signature uid0 now).2
        (upsertUser db req.phone_hash req.identity_key req.signed_prekey
          req.prekey_signature uid0 now).1
        (req.one_time_prekeys.take f) pid0 now) := by
  refine ⟨?_, rfl, ?_⟩
  · simp [registerStates, prekeyStates_length]
  · simpa [registerStates] using
      prekeyStates_get (upsertUser db req.phone_hash req.identity_key req.signed_prekey
          req.prekey_signature uid0 now).2 now req.one_time_prekeys
        (upsertUser db req.phone_hash req.identity_key req.signed_prekey
          req.prekey_signature uid0 now).1 pid0 f hf

theorem c7_per_statement_visibility_witness :
    1 ≤ exReq7.one_time_prekeys.length ∧
    ((registerStates regDb0 exReq7 1 100 50).length
        = exReq7.one_time_prekeys.length + 2 ∧
      (registerStates regDb0 exReq7 1 100 50).get? 0 = some regDb0 ∧
      (registerStates regDb0 exReq7 1 100 50).get? 2 =
        some (applyPrekeys
          (upsertUser regDb0 exReq7.phone_hash exReq7.identity_key exReq7.signed_prekey
            exReq7.prekey_signature 1 50).2
          (upsertUser regDb0 exReq7.phone_hash exReq7.identity_key exReq7.signed_prekey
            exReq7.prekey_signature 1 50).1
          (exReq7.one_time_prekeys.take 1) 100 50)) :=
  ⟨by decide, c7_per_statement_visibility regDb0 exReq7 1 100 50 1 (by decide)⟩

theorem oldestOk_mem {ps : List PrekeyRow} {uid : Nat} {r : PrekeyRow}
    (h : oldestOk ps uid r = true) :
    r ∈ ps ∧ r.used = false ∧ r.user_id = uid ∧
      ∀ s ∈ unusedFor ps uid, r.created_at ≤ s.created_at := by
  rw [oldestOk, Bool.and_eq_true] at h
  obtain ⟨hmem, hall⟩ := h
  have hmem' : r ∈ unusedFor ps uid := of_decide_eq_true hmem
  have hf := List.mem_filter.mp hmem'
  have hprops : r.user_id = uid ∧ r.used = false := by
    have := hf.2
    simp at this
    exact this
  refine ⟨hf.1, hprops.2, hprops.1, ?_⟩
  intro s hs
  exact of_decide_eq_true ((List.all_eq_true.mp hall) s hs)

/-- C2 counterexample: the claim says the dispensing query selects the oldest
unused row with ties broken by id ascending.  The query orders by created_at
only, so with two unused rows of equal created_at (ids 1 and 2, key ids 10
and 11) the store may return the row with id 2 and key id 11, while the
claimed tie-break selects key id 10. -/
theorem c2_tiebreak_counterexample :
    GetKeyBundle tieDb "ab"
      (.ok ⟨b64encode [7], b64encode [8], b64encode [9], some (11, b64encode [2])⟩)
      ⟨tieDb.users, markUsed tieDb.prekeys 2⟩ ∧
    (specOldestPick tieDb.prekeys 1).map PrekeyRow.key_id = some 10 ∧
    (11 : Nat) ≠ 10 := by
  refine ⟨?_, by decide, by decide⟩
  exact GetKeyBundle.withPrekey tieUser tieR2 (by decide) (by decide)

/-- C2 (amended): get_key_bundle returns 404 exactly when no user has the
phone hash; for an existing user it returns the user's identity key, signed
prekey and signature (base64-encoded), and either a null one_time_prekey with
the state unchanged when the user has no unused row, or the (key_id,
public_key) of an unused row of minimal created_at (tie order among equal
created_at values is unspecified - the query orders by created_at only),
whose used flag is set to true by the same statement that reads it. -/
theorem c2_bundle_dispense (db : DB) (ph : String) (res : Except Nat Bundle) (db' : DB)
    (hg : GetKeyBundle db ph res db') :
    (res = .error 404 ↔ db.users.find? (fun u => u.phone_hash == ph) = none) ∧
    (∀ b, res = .ok b →
      ∃ u, db.users.find? (fun v => v.phone_hash == ph) = some u ∧
        b.identity_key = b64encode u.identity_key ∧
        b.signed_prekey = b64encode u.signed_prekey ∧
        b.prekey_signature = b64encode u.prekey_signature ∧
        ((b.one_time_prekey = none ∧ unusedFor db.prekeys u.id = [] ∧ db' = db) ∨
         (∃ r, r ∈ db.prekeys ∧ r.used = false ∧ r.user_id = u.id ∧
            (∀ s ∈ unusedFor db.prekeys u.id, r.created_at ≤ s.created_at) ∧
            b.one_time_prekey = some (r.key_id, b64encode r.public_key) ∧
            db'.users = db.users ∧ db'.prekeys = markUsed db.prekeys r.id ∧
            (∃ r' ∈ db'.prekeys, r'.id = r.id ∧ r'.key_id = r.key_id ∧
              r'.used = true)))) := by
  cases hg with
  | notFound h =>
      refine ⟨⟨fun _ => h, fun _ => rfl⟩, ?_⟩
      intro b hb
      cases hb
  | noPrekey u hu h =>
      refine ⟨⟨(fun hx => by cases hx), (fun hx => by rw [hu] at hx; cases hx)⟩, ?_⟩
      intro b hb
      have hb' := Except.ok.inj hb
      subst hb'
      exact ⟨u, hu, rfl, rfl, rfl, Or.inl ⟨rfl, h, rfl⟩⟩
  | withPrekey u r hu h =>
      obtain ⟨hmem, hused, huid, hmin⟩ := oldestOk_mem h
      refine ⟨⟨(fun hx => by cases hx), (fun hx => by rw [hu] at hx; cases hx)⟩, ?_⟩
      intro b hb
      have hb' := Except.ok.inj hb
      subst hb'
      refine ⟨u, hu, rfl, rfl, rfl, Or.inr ⟨r, hmem, hused, huid, hmin, rfl, rfl, rfl, ?_⟩⟩
      refine ⟨{ r with used := true }, ?_, rfl, rfl, rfl⟩
      exact List.mem_map.mpr ⟨r, hmem, by simp [markUsed]⟩

theorem c2_bundle_dispense_witness :
    GetKeyBundle tieDb "ab"
      (.ok ⟨b64encode [7], b64encode [8], b64encode [9], some (10, b64encode [1])⟩)
      ⟨tieDb.users, markUsed tieDb.prekeys 1⟩ ∧
    (((.ok ⟨b64encode [7], b64encode [8], b64encode [9], some (10, b64encode [1])⟩ :
        Except Nat Bundle) = .error 404 ↔
      tieDb.users.find? (fun u => u.phone_hash == "ab") = none) ∧
    (∀ b, (.ok ⟨b64encode [7], b64encode [8], b64encode [9], some (10, b64encode [1])⟩ :
        Except Nat Bundle) = .ok b →
      ∃ u, tieDb.users.find? (fun v => v.phone_hash == "ab") = some u ∧
        b.identity_key = b64encode u.identity_key ∧
        b.signed_prekey = b64encode u.signed_prekey ∧
        b.prekey_signature = b64encode u.prekey_signature ∧
        ((b.one_time_prekey = none ∧ unusedFor tieDb.prekeys u.id = [] ∧
            (⟨tieDb.users, markUsed tieDb.prekeys 1⟩ : DB) = tieDb) ∨
         (∃ r, r ∈ tieDb.prekeys ∧ r.used = false ∧ r.user_id = u.id ∧
            (∀ s ∈ unusedFor tieDb.prekeys u.id, r.created_at ≤ s.created_at) ∧
            b.one_time_prekey = some (r.key_id, b64encode r.public_key) ∧
            (⟨tieDb.users, markUsed tieDb.prekeys 1⟩ : DB).users = tieDb.users ∧
            (⟨tieDb.users, markUsed tieDb.prekeys 1⟩ : DB).prekeys
              = markUsed tieDb.prekeys r.id ∧
            (∃ r' ∈ (⟨tieDb.users, markUsed tieDb.prekeys 1⟩ : DB).prekeys,
              r'.id = r.id ∧ r'.key_id = r.key_id ∧ r'.used = true))))) := by
  have hg : GetKeyBundle tieDb "ab"
      (.ok ⟨b64encode [7], b64encode [8], b64encode [9], some (10, b64encode [1])⟩)
      ⟨tieDb.users, markUsed tieDb.prekeys 1⟩ :=
    GetKeyBundle.withPrekey tieUser tieR1 (by decide) (by decide)
  exact ⟨hg, c2_bundle_dispense tieDb "ab" _ _ hg⟩

theorem markUsed_map_id (ps : List PrekeyRow) (rid : Nat) :
    (markUsed ps rid).map PrekeyRow.id = ps.map PrekeyRow.id := by
  rw [markUsed, List.map_map]
  refine List.map_congr_left ?_
  intro r _
  by_cases h : r.id = rid <;> simp [h]

theorem markUsed_map_pair (ps : List PrekeyRow) (rid : Nat) :
    (markUsed ps rid).map (fun r => (r.user_id, r.key_id))
      = ps.map (fun r => (r.user_id, r.key_id)) := by
  rw [markUsed, List.map_map]
  refine List.map_congr_left ?_
  intro r _
  by_cases h : r.id = rid <;> simp [h]

theorem markUsed_cons (h : PrekeyRow) (t : List PrekeyRow) (rid : Nat) :
    markUsed (h :: t) rid
      = (if h.id == rid then { h with used := true } else h) :: markUsed t rid := rfl

theorem markUsed_of_not_mem (ps : List PrekeyRow) (rid : Nat)
    (h : rid ∉ ps.map PrekeyRow.id) : markUsed ps rid = ps := by
  induction ps with
  | nil => rfl
  | cons r t ih =>
      simp only [List.map_cons, List.mem_cons, not_or] at h
      obtain ⟨h1, h2⟩ := h
      have hbeq : (r.id == rid) = false := by
        simp
        exact fun hx => h1 hx.symm
      rw [markUsed_cons, hbeq, ih h2]
      simp

theorem mem_markUsed_unused {ps : List PrekeyRow} {rid : Nat} {r' : PrekeyRow}
    (h : r' ∈ markUsed ps rid) (hu : r'.used = false) :
    r' ∈ ps ∧ r'.id ≠ rid := by
  obtain ⟨s, hs, hsr⟩ := List.mem_map.mp h
  by_cases hid : (s.id == rid) = true
  · rw [if_pos hid] at hsr
    have : r'.used = true := by rw [← hsr]
    rw [this] at hu
    cases hu
  · rw [if_neg hid] at hsr
    subst hsr
    refine ⟨hs, ?_⟩
    simpa using hid

theorem unusedFor_markUsed_length {uid : Nat} :
    ∀ (ps : List PrekeyRow) (r : PrekeyRow),
      (ps.map PrekeyRow.id).Nodup → r ∈ ps → r.used = false → r.user_id = uid →
      (unusedFor (markUsed ps r.id) uid).length + 1 = (unusedFor ps uid).length := by
  intro ps
  induction ps with
  | nil => intro r _ hr; cases hr
  | cons h t ih =>
      intro r hnd hr hu huid
      simp only [List.map_cons, List.nodup_cons] at hnd
      obtain ⟨hhid, hndt⟩ := hnd
      rcases List.mem_cons.mp hr with hrh | hrt
      · subst hrh
        have hmt : markUsed t r.id = t := markUsed_of_not_mem t r.id hhid
        have hself : (r.id == r.id) = true := by simp
        rw [markUsed_cons, hself, hmt]
        simp [unusedFor, List.filter_cons, hu, huid]
      · have hne : (h.id == r.id) = false := by
          simp
          intro hx
          exact hhid (by rw [hx]; exact List.mem_map.mpr ⟨r, hrt, rfl⟩)
        rw [markUsed_cons, hne]
        simp only [Bool.false_eq_true, if_false]
        have hrec := ih r hndt hrt hu huid
        simp only [unusedFor, List.filter_cons] at hrec ⊢
        by_cases hp : (h.user_id == uid && !h.used) = true
        · simp only [if_pos hp, List.length_cons]
          omega
        · simp only [if_neg hp]
          omega

theorem dispenseSeq_spec (uid : Nat) :
    ∀ (outs : List (Option (Nat × List Nat))) (ps ps2 : List PrekeyRow),
    DispenseSeq uid ps outs ps2 →
    (ps.map PrekeyRow.id).Nodup →
    ∃ rows : List PrekeyRow,
      outs.filterMap id = rows.map (fun r => (r.key_id, r.public_key)) ∧
      (∀ r ∈ rows, r ∈ ps ∧ r.used = false ∧ r.user_id = uid) ∧
      (rows.map PrekeyRow.id).Nodup ∧
      rows.length = min (unusedFor ps uid).length outs.length := by
  intro outs
  induction outs with
  | nil =>
      intro ps ps2 hseq _
      exact ⟨[], rfl, by simp, by simp, by simp⟩
  | cons out rest ih =>
      intro ps ps2 hseq hids
      cases hseq with
      | step h1 h2 =>
          cases h1 with
          | miss hmiss =>
              obtain ⟨rows, hfm, hmem, hnd, hlen⟩ := ih ps ps2 h2 hids
              refine ⟨rows, by simpa using hfm, hmem, hnd, ?_⟩
              rw [hmiss] at hlen ⊢
              simpa using hlen
          | hit r hr =>
              obtain ⟨hmem0, hused0, huid0, _⟩ := oldestOk_mem hr
              have hids1 : ((markUsed ps r.id).map PrekeyRow.id).Nodup := by
                rw [markUsed_map_id]
                exact hids
              obtain ⟨rows, hfm, hmem, hnd, hlen⟩ := ih (markUsed ps r.id) ps2 h2 hids1
              refine ⟨r :: rows, ?_, ?_, ?_, ?_⟩
              · simpa using hfm
              · intro x hx
                rcases List.mem_cons.mp hx with hxr | hxrows
                · subst hxr
                  exact ⟨hmem0, hused0, huid0⟩
                · obtain ⟨hxm, hxu, hxuid⟩ := hmem x hxrows
                  exact ⟨(mem_markUsed_unused hxm hxu).1, hxu, hxuid⟩
              · simp only [List.map_cons, List.nodup_cons]
                refine ⟨?_, hnd⟩
                intro hin
                obtain ⟨x, hxrows, hxid⟩ := List.mem_map.mp hin
                obtain ⟨hxm, hxu, _⟩ := hmem x hxrows
                exact (mem_markUsed_unused hxm hxu).2 hxid
              · have hN : (unusedFor (markUsed ps r.id) uid).length + 1
                    = (unusedFor ps uid).length :=
                  unusedFor_markUsed_length ps r hids hmem0 hused0 huid0
                simp only [List.length_cons]
                rw [← hN, Nat.succ_min_succ, hlen]

theorem filterMap_id_length_add_none_count (outs : List (Option (Nat × List Nat))) :
    (outs.filterMap id).length + outs.countP (fun o => o.isNone) = outs.length := by
  induction outs with
  | nil => rfl
  | cons o t ih =>
      cases o <;> simp [List.countP_cons, ih] <;> omega

/-- C1: with a user's prekey table satisfying the schema constraints (the
SERIAL primary key and UNIQUE(user_id, key_id)), any serialization of K
concurrent fetch_bundle dispensing statements returns prekeys to exactly
min(N, K) callers where N is the number of unused rows, the returned key ids
are pairwise distinct (so no (user_id, key_id) pair is ever returned by two
dispensations), and the remaining K - min(N, K) callers receive a null
one_time_prekey. -/
theorem c1_atomic_prekey_consumption (uid : Nat) (ps ps2 : List PrekeyRow)
    (outs : List (Option (Nat × List Nat))) (hseq : DispenseSeq uid ps outs ps2)
    (hids : (ps.map PrekeyRow.id).Nodup)
    (hpairs : (ps.map (fun r => (r.user_id, r.key_id))).Nodup) :
    (outs.filterMap id).length = min (unusedFor ps uid).length outs.length ∧
    ((outs.filterMap id).map Prod.fst).Nodup ∧
    outs.countP (fun o => o.isNone)
      = outs.length - min (unusedFor ps uid).length outs.length := by
  obtain ⟨rows, hfm, hmem, hnd, hlen⟩ := dispenseSeq_spec uid outs ps ps2 hseq hids
  have hcount : (outs.filterMap id).length = min (unusedFor ps uid).length outs.length := by
    rw [hfm, List.length_map, hlen]
  refine ⟨hcount, ?_, ?_⟩
  · rw [hfm, List.map_map]
    have hkey : (rows.map (Prod.fst ∘ fun r => (r.key_id, r.public_key)))
        = rows.map (fun r => r.key_id) := rfl
    rw [hkey]
    have hrowsnd : rows.Nodup := List.Nodup.of_map PrekeyRow.id hnd
    refine List.Nodup.map_on ?_ hrowsnd
    intro x hx y hy hxy
    obtain ⟨hxm, _, hxuid⟩ := hmem x hx
    obtain ⟨hym, _, hyuid⟩ := hmem y hy
    refine List.inj_on_of_nodup_map hpairs hxm hym ?_
    simp [hxuid, hyuid, hxy]
  · have := filterMap_id_length_add_none_count outs
    omega

theorem c1_atomic_prekey_consumption_witness :
    (c1ps.map PrekeyRow.id).Nodup ∧
    (c1ps.map (fun r => (r.user_id, r.key_id))).Nodup ∧
    ((c1outs.filterMap id).length = min (unusedFor c1ps 1).length c1outs.length ∧
      ((c1outs.filterMap id).map Prod.fst).Nodup ∧
      c1outs.countP (fun o => o.isNone)
        = c1outs.length - min (unusedFor c1ps 1).length c1outs.length) := by
  have hseq : DispenseSeq 1 c1ps c1outs (markUsed (markUsed c1ps 1) 2) :=
    DispenseSeq.step (Dispense.hit c1ps c1r1 (by decide))
      (DispenseSeq.step (Dispense.hit (markUsed c1ps 1) c1r2 (by decide))
        (DispenseSeq.step (Dispense.miss (markUsed (markUsed c1ps 1) 2) (by decide))
          (DispenseSeq.nil (markUsed (markUsed c1ps 1) 2))))
  exact ⟨by decide, by decide,
    c1_atomic_prekey_consumption 1 c1ps (markUsed (markUsed c1ps 1) 2) c1outs hseq
      (by decide) (by decide)⟩

end PrivComm
